import Mathlib

/-!
Shallow embedding of the output-emission core of the `wild` ELF linker
(`src/elf_writer.rs`).  Machine integers (`u64`, `i32`) are modelled as `Nat`
with explicit `% 2 ^ 64` wrapping, respectively as `Int` with explicit
two's-complement reinterpretation.  Fallible Rust code (`anyhow` bails and
Rust panics/asserts) is modelled with `Except Err`; a `bail!`/`context`
failure becomes `Err.bail`, a panic or failed assertion becomes `Err.fatal`.
-/

namespace ElfWriter

/-- Failure of an emission step: `bail` models a recoverable `anyhow` error,
`fatal` models a Rust panic or a failed assertion. -/
inductive Err where
  | bail (msg : String)
  | fatal (msg : String)
deriving Repr, DecidableEq

/-- The modulus of `u64` arithmetic. -/
def U64MOD : Nat := 2 ^ 64

/-- Wrapping `u64` addition. -/
def wadd (a b : Nat) : Nat := (a + b) % U64MOD

/-- Wrapping `u64` subtraction (`u64::wrapping_sub`). -/
def wsub (a b : Nat) : Nat := (a + (U64MOD - b % U64MOD)) % U64MOD

/-- Reinterpretation of a `u64` bit pattern as an `i64` (two's complement),
as done by `as i64` in `PltGotWriter::process_resolution`. -/
def u64AsI64 (x : Nat) : Int := if x < 2 ^ 63 then (x : Int) else (x : Int) - 2 ^ 64

/-- Whether the `i64` reinterpretation of a `u64` fits in an `i32`
(`i64::try_into::<i32>` succeeding). -/
def fitsI32 (x : Nat) : Prop := x < 2 ^ 31 ∨ 2 ^ 64 - 2 ^ 31 ≤ x

instance : DecidablePred fitsI32 := fun x => by unfold fitsI32; infer_instance

/-- Little-endian byte encoding: the first `n` bytes of `to_le_bytes` of a value. -/
def leBytes : Nat → Nat → List Nat
  | 0, _ => []
  | n + 1, v => v % 256 :: leBytes n (v / 256)

/-- Little-endian byte decoding (inverse of `leBytes` on byte lists). -/
def fromLeBytes : List Nat → Nat
  | [] => 0
  | b :: bs => b % 256 + 256 * fromLeBytes bs

/-- Signed decoding of four little-endian bytes as an `i32`. -/
def sdecode32 (bs : List Nat) : Int :=
  if fromLeBytes bs < 2 ^ 31 then (fromLeBytes bs : Int)
  else (fromLeBytes bs : Int) - 2 ^ 32

/-- Semantics of `copy_from_slice` into `out[offset .. offset + repl.length)`. -/
def spliceBytes (out : List Nat) (offset : Nat) (repl : List Nat) : List Nat :=
  out.take offset ++ repl ++ out.drop (offset + repl.length)

/-! ## Slice partitioning (`split_output_into_sections`, claim C1) -/

/-- One entry of the vector built at the start of `split_output_into_sections`:
an output section id together with its `file_offset` and `file_size`. -/
structure SectionAllocation where
  id : Nat
  offset : Nat
  size : Nat
deriving Repr, DecidableEq

/-- The comparison realised by `sort_by_key(|s| (s.offset, s.offset + s.size))`:
lexicographic order on the key pair (Rust tuple `Ord`). -/
def allocLE (a b : SectionAllocation) : Prop :=
  a.offset < b.offset ∨ (a.offset = b.offset ∧ a.offset + a.size ≤ b.offset + b.size)

instance : DecidableRel allocLE := fun a b => by unfold allocLE; infer_instance

instance : IsTotal SectionAllocation allocLE where
  total a b := by unfold allocLE; omega

instance : IsTrans SectionAllocation allocLE where
  trans a b c := by unfold allocLE; omega

/-- A carved sub-slice of the output mmap: its absolute start position in the
file and its length in bytes. -/
structure Slice where
  start : Nat
  len : Nat
deriving Repr, DecidableEq

/-- The remaining uncarved tail of the mmap: absolute position of its first
byte and number of bytes left.  `slice_take_prefix_mut` advances `pos` and
shrinks `len`. -/
structure Cursor where
  pos : Nat
  len : Nat
deriving Repr, DecidableEq

/-- The loop of `split_output_into_sections`: walk the (already sorted)
allocations; for each one, `checked_sub` computes the padding `a.offset -
offset` (its failure — offsets going backward — is the `panic!`), then
`slice_take_prefix_mut` skips the padding and carves `a.size` bytes (taking
past the end of the remaining data is a Rust panic).  Returns the carved
`(id, slice)` pairs in walk order. -/
def splitWalk : List SectionAllocation → Cursor → Nat → Except Err (List (Nat × Slice))
  | [], _, _ => .ok []
  | a :: rest, data, offset =>
    if a.offset < offset then
      .error (.fatal "Offsets went backward when splitting output file")
    else
      if data.len < (a.offset - offset) + a.size then
        .error (.fatal "slice split past the end of the output file")
      else
        match splitWalk rest ⟨data.pos + (a.offset - offset) + a.size,
            data.len - ((a.offset - offset) + a.size)⟩ (a.offset + a.size) with
        | .error e => .error e
        | .ok r => .ok ((a.id, ⟨data.pos + (a.offset - offset), a.size⟩) :: r)

/-- Embeds `split_output_into_sections`: build the allocation vector, sort it
ascending by `(file_offset, file_offset + file_size)` (Rust `sort_by_key` is a
stable sort), then walk the mmap — starting at position `0` with `mmapLen`
bytes — carving one sub-slice of exactly `file_size` bytes per section. -/
def split_output_into_sections (allocations : List SectionAllocation) (mmapLen : Nat) :
    Except Err (List (Nat × Slice)) :=
  splitWalk (allocations.insertionSort allocLE) ⟨0, mmapLen⟩ 0

/-- Disjointness of two carved slices: one ends at or before the other starts. -/
def sliceDisjoint (s t : Slice) : Prop :=
  s.start + s.len ≤ t.start ∨ t.start + t.len ≤ s.start

/-! ## Dynamic relocations (`RelocationWriter`, claims C2, C5, C8) -/

/-- Modelled from the spec: the relocation-type number `R_X86_64_RELATIVE`
from the crate's `elf` module (not among the sources); standard value 8. -/
def R_X86_64_RELATIVE : Nat := 8

/-- Modelled from the spec: the relocation-type number `R_X86_64_IRELATIVE`
from the crate's `elf` module (not among the sources); standard value 37. -/
def R_X86_64_IRELATIVE : Nat := 37

/-- One `Rela` record: `address` is the place being relocated, `info` the
relocation type, `addend` the value added by the dynamic loader. -/
structure Rela where
  address : Nat
  addend : Nat
  info : Nat
deriving Repr, DecidableEq

/-- Embeds `RelocationWriter`: whether dynamic relocations are being written
(`is_active`), the number of reserved `.rela.dyn` slots remaining, and the
records written so far (the slice prefix already consumed). -/
structure RelocationWriter where
  is_active : Bool
  relaDynRemaining : Nat
  relaDynWritten : List Rela
deriving Repr, DecidableEq

/-- Embeds `RelocationWriter::write_relocation`: a no-op when inactive;
otherwise take the first remaining `.rela.dyn` slot (an error when none
remain) and fill it with an `R_X86_64_RELATIVE` record. -/
def RelocationWriter.write_relocation (w : RelocationWriter) (place address : Nat) :
    Except Err RelocationWriter :=
  if !w.is_active then .ok w
  else
    match w.relaDynRemaining with
    | 0 => .error (.bail "insufficient allocation to .rela.dyn")
    | n + 1 =>
        .ok { w with relaDynRemaining := n,
                     relaDynWritten := w.relaDynWritten ++ [⟨place, address, R_X86_64_RELATIVE⟩] }

/-- Embeds `RelocationWriter::validate_empty`: fails when reserved `.rela.dyn`
slots remain unused. -/
def RelocationWriter.validate_empty (w : RelocationWriter) : Except Err Unit :=
  if w.relaDynRemaining = 0 then .ok ()
  else .error (.bail "Allocated too much space in .rela.dyn")

/-! ## GOT/PLT emission (`PltGotWriter`, claims C2, C4, C5, C8) -/

/-- Modelled from the spec: `PLT_ENTRY_SIZE = 16` from the crate's `elf`
module (not among the sources). -/
def PLT_ENTRY_SIZE : Nat := 16

/-- Modelled from the spec: `GOT_ENTRY_SIZE = 8` from the crate's `elf`
module (not among the sources). -/
def GOT_ENTRY_SIZE : Nat := 8

/-- Modelled from the spec: `CURRENT_EXE_TLS_MOD`, the TLS module index of
the current executable, from the crate's `elf` module (not among the
sources); value 1. -/
def CURRENT_EXE_TLS_MOD : Nat := 1

/-- The target-resolution kinds `process_resolution` distinguishes.  Modelled
from the spec insofar as the full enum lives in the missing `layout` module:
`GotTlsDouble`, `GotTlsOffset` and `IFunc` get dedicated match arms in the
source; `Address`, `Got` and `Plt` (named at the source's other use sites)
take the default arm. -/
inductive TargetResolutionKind where
  | Address
  | Got
  | Plt
  | GotTlsDouble
  | GotTlsOffset
  | IFunc
deriving Repr, DecidableEq

/-- A resolved symbol or section: absolute address, optional GOT and PLT
addresses, and the target-resolution kind. -/
structure Resolution where
  address : Nat
  got_address : Option Nat
  plt_address : Option Nat
  kind : TargetResolutionKind
deriving Repr, DecidableEq

/-- Embeds the state of `PltGotWriter`: the remaining GOT slots with their
current contents (the fresh mmap is zero-filled), the finalized values of the
consumed GOT slots in consumption order, the remaining and already-written
PLT bytes, the `.rela.plt` slots, and the TLS segment range
`[tlsStart, tlsEnd)`. -/
structure PltGotWriter where
  got : List Nat
  gotWritten : List Nat
  pltRemaining : Nat
  pltWritten : List Nat
  relaPltRemaining : Nat
  relaPltWritten : List Rela
  tlsStart : Nat
  tlsEnd : Nat
deriving Repr, DecidableEq

/-- The tail of `process_resolution` once the GOT value and the
`needs_relocation` flag are decided: consume one GOT slot — writing `value`
into it, or leaving its (zero-initialised) content and emitting a dynamic
relocation instead — then, when `res.plt_address` is present, emit one PLT
entry: a copy of the 16-byte template with bytes `[7..11]` patched with the
little-endian `i32` of `got_address - (plt_address + 0xb)`, failing when that
difference does not fit `i32`. -/
def finishGotPlt (template : List Nat) (s : PltGotWriter) (res : Resolution)
    (rw : RelocationWriter) (got_address : Nat) (needsRelocation : Bool) (value : Nat) :
    Except Err (PltGotWriter × RelocationWriter) := do
  match s.got with
  | [] => throw (.fatal "slice split past the end of the GOT")
  | g0 :: rest =>
    let srw ←
      if needsRelocation then do
        let rw ← rw.write_relocation got_address value
        pure ({ s with got := rest, gotWritten := s.gotWritten ++ [g0] }, rw)
      else
        pure ({ s with got := rest, gotWritten := s.gotWritten ++ [value] }, rw)
    let s := srw.1
    let rw := srw.2
    match res.plt_address with
    | none => pure (s, rw)
    | some plt_address =>
        if s.pltRemaining = 0 then throw (.bail "Didn't allocate enough space in PLT")
        else if s.pltRemaining < PLT_ENTRY_SIZE then
          throw (.fatal "slice split past the end of the PLT")
        else if template.length ≠ PLT_ENTRY_SIZE then
          throw (.fatal "copy_from_slice length mismatch")
        else
          let d := wsub got_address (wadd plt_address 0xb)
          if fitsI32 d then
            pure ({ s with pltRemaining := s.pltRemaining - PLT_ENTRY_SIZE,
                           pltWritten := s.pltWritten ++
                             (template.take 7 ++ leBytes 4 d ++ template.drop 11) }, rw)
          else throw (.bail "PLT is more than 2GB away from GOT")

/-- Embeds `PltGotWriter::process_resolution`.  `template` stands for the
16-byte `PLT_ENTRY_TEMPLATE` of the crate's `elf` module (not among the
sources; the spec fixes only its length).  Rust panics (slice splits past the
end) are `fatal` errors. -/
def process_resolution (template : List Nat) (s : PltGotWriter) (res : Resolution)
    (rw : RelocationWriter) : Except Err (PltGotWriter × RelocationWriter) :=
  match res.got_address with
  | none => .ok (s, rw)
  | some got_address =>
    if s.got.isEmpty then .error (.bail "Didn't allocate enough space in GOT")
    else
      match res.kind with
      | .GotTlsDouble =>
          match s.got with
          | _ :: _ :: rest =>
              .ok ({ s with got := rest,
                            gotWritten := s.gotWritten ++
                              [CURRENT_EXE_TLS_MOD, wsub res.address s.tlsEnd] }, rw)
          | _ => .error (.fatal "slice split past the end of the GOT")
      | .GotTlsOffset =>
          if s.tlsStart ≤ res.address ∧ res.address < s.tlsEnd then
            finishGotPlt template s res rw got_address false (wsub res.address s.tlsEnd)
          else .error (.bail "GotTlsOffset resolves to address not in TLS segment")
      | .IFunc => finishGotPlt template s res rw got_address false 0
      | _ => finishGotPlt template s res rw got_address rw.is_active res.address

/-- Embeds `PltGotWriter::validate_empty`: fails unless both the GOT and the
PLT residuals are empty.  The `.rela.plt` residual is not inspected. -/
def PltGotWriter.validate_empty (s : PltGotWriter) : Except Err Unit :=
  if ¬ s.got.isEmpty ∨ s.pltRemaining ≠ 0 then
    .error (.bail "Unused PLT/GOT entries remain")
  else .ok ()

/-- An IRELATIVE PLT relocation from the layout: the resolver address and the
GOT address it targets. -/
structure PltRelocation where
  resolver : Nat
  got_address : Nat
deriving Repr, DecidableEq

/-- Embeds `PltGotWriter::apply_relocation`: take the first remaining
`.rela.plt` slot (`slice_take_prefix_mut` panics when none remain) and fill
it with an `R_X86_64_IRELATIVE` record whose `address` is the GOT address and
whose `addend` is the resolver. -/
def PltGotWriter.apply_relocation (s : PltGotWriter) (rel : PltRelocation) :
    Except Err PltGotWriter :=
  match s.relaPltRemaining with
  | 0 => .error (.fatal "slice split past the end of .rela.plt")
  | n + 1 =>
      .ok { s with relaPltRemaining := n,
                   relaPltWritten := s.relaPltWritten ++
                     [⟨rel.got_address, rel.resolver, R_X86_64_IRELATIVE⟩] }

/-! ## The relocation engine (`apply_relocation`, claims C2, C3) -/

/-- The relocation kinds dispatched on by `apply_relocation`
(`RelocationKind` of the crate's `elf` module; kinds hitting the source's
catch-all arm are collapsed into `Unsupported`). -/
inductive RelocationKind where
  | Absolute
  | Relative
  | GotRelative
  | PltRelative
  | TlsGd
  | TlsLd
  | DtpOff
  | GotTpOff
  | TpOff
  | Unsupported
deriving Repr, DecidableEq

/-- Decoded relocation information: the kind and the width in bytes of the
value to be stored (`RelocationKindInfo` of the missing `elf` module). -/
structure RelocationKindInfo where
  kind : RelocationKind
  byte_size : Nat
deriving Repr, DecidableEq

/-- Modelled from the spec: `RelocationKindInfo::from_raw(R_X86_64_TLSGD)`
lives in the crate's `elf` module (not among the sources); the spec's
relocation table says the value stored for the GD-to-LE transformation is a
32-bit immediate. -/
def tlsGdInfo : RelocationKindInfo := ⟨.TlsGd, 4⟩

/-- The TLS modes of `args.tls_mode()`. -/
inductive TlsMode where
  | LocalExec
  | Preserve
deriving Repr, DecidableEq

/-- The parts of the `Layout` read by `apply_relocation`: the TLS mode, the
`link_static` flag, the end address of the TLS segment, and the address of
the internal TLSLD GOT entry when present. -/
structure LayoutInfo where
  tlsMode : TlsMode
  linkStatic : Bool
  tlsEndAddress : Nat
  tlsldGotEntry : Option Nat
deriving Repr, DecidableEq

/-- The modifier returned by `apply_relocation` telling the caller whether to
skip the relocation that follows. -/
inductive RelocationModifier where
  | Normal
  | SkipNextRelocation
deriving Repr, DecidableEq

/-- Embeds `expect_bytes_before_offset`: verifies that
`bytes[offset - expected.len() .. offset]` equals `expected`, failing when
fewer than `expected.len()` bytes precede `offset` or when the bytes differ
(each failure reports expected versus actual).  Indexing past the end of
`bytes` is a Rust panic. -/
def expect_bytes_before_offset (bytes : List Nat) (offset : Nat) (expected : List Nat) :
    Except Err Unit :=
  if offset < expected.length then
    .error (.bail "Expected bytes, but had fewer bytes available")
  else if bytes.length < offset then .error (.fatal "slice index out of range")
  else if (bytes.drop (offset - expected.length)).take expected.length = expected then .ok ()
  else .error (.bail "Expected bytes differ from actual bytes")

/-- The twelve replacement bytes of the GD-to-LE transformation. -/
def TLSGD_LE_BYTES : List Nat :=
  [0x64, 0x48, 0x8b, 0x04, 0x25, 0, 0, 0, 0, 0x48, 0x8d, 0x80]

/-- The eight replacement bytes of the LD-to-LE transformation. -/
def TLSLD_LE_BYTES : List Nat :=
  [0x66, 0x66, 0x66, 0x64, 0x48, 0x8b, 0x04, 0x25]

/-- The per-kind value computation of `apply_relocation` (the `match
rel_info.kind` block): yields the relocation value, the (possibly rewritten)
section bytes, the (possibly advanced) write offset, the modifier for the
following relocation, and the (possibly advanced) relocation writer. -/
def relocation_step (res : Resolution) (offset_in_section : Nat)
    (relInfo : RelocationKindInfo) (addend : Nat) (section_address : Nat)
    (layout : LayoutInfo) (out : List Nat) (rw : RelocationWriter) :
    Except Err (Nat × List Nat × Nat × RelocationModifier × RelocationWriter) :=
  let address := res.address
  let place := wadd section_address offset_in_section
  match relInfo.kind with
    | .Absolute =>
        if rw.is_active ∧ address ≠ 0 then
          (rw.write_relocation place address).map
            (fun rw => (0, out, offset_in_section, .Normal, rw))
        else .ok (wadd address addend, out, offset_in_section, .Normal, rw)
    | .Relative => .ok (wsub (wadd address addend) place, out, offset_in_section, .Normal, rw)
    | .GotRelative =>
        match res.got_address with
        | some g => .ok (wsub (wadd g addend) place, out, offset_in_section, .Normal, rw)
        | none => .error (.bail "Missing GOT address")
    | .PltRelative =>
        if layout.linkStatic then
          .ok (wsub (wadd address addend) place, out, offset_in_section, .Normal, rw)
        else
          match res.plt_address with
          | some p => .ok (wsub (wadd p addend) place, out, offset_in_section, .Normal, rw)
          | none => .error (.bail "Missing PLT address")
    | .TlsGd =>
        match layout.tlsMode with
        | .LocalExec =>
            match expect_bytes_before_offset out offset_in_section
                [0x66, 0x48, 0x8d, 0x3d] with
            | .error e => .error e
            | .ok _ =>
                if out.length < offset_in_section + 8 then
                  .error (.fatal "slice index out of range")
                else
                  .ok (wsub address layout.tlsEndAddress,
                    spliceBytes out (offset_in_section - 4) TLSGD_LE_BYTES,
                    offset_in_section + 8, .SkipNextRelocation, rw)
        | .Preserve =>
            match res.got_address with
            | some g => .ok (wsub (wadd g addend) place, out, offset_in_section, .Normal, rw)
            | none => .error (.bail "Missing GOT address")
    | .TlsLd =>
        match layout.tlsMode with
        | .LocalExec =>
            match expect_bytes_before_offset out offset_in_section [0x48, 0x8d, 0x3d] with
            | .error e => .error e
            | .ok _ =>
                if out.length < offset_in_section + 5 then
                  .error (.fatal "slice index out of range")
                else
                  .ok (0, spliceBytes out (offset_in_section - 3) TLSLD_LE_BYTES,
                    offset_in_section + 5, .SkipNextRelocation, rw)
        | .Preserve =>
            match layout.tlsldGotEntry with
            | some e => .ok (wsub (wadd e addend) place, out, offset_in_section, .Normal, rw)
            | none => .error (.fatal "called unwrap on a None value")
    | .DtpOff =>
        if layout.linkStatic then
          .ok (wadd (wsub address layout.tlsEndAddress) addend, out, offset_in_section,
            .Normal, rw)
        else .error (.fatal "not yet implemented")
    | .GotTpOff =>
        match res.got_address with
        | some g => .ok (wsub (wadd g addend) place, out, offset_in_section, .Normal, rw)
        | none => .error (.bail "Missing GOT address")
    | .TpOff =>
        .ok (wsub address layout.tlsEndAddress, out, offset_in_section, .Normal, rw)
    | .Unsupported => .error (.bail "Unsupported relocation kind")

/-- Embeds `apply_relocation` from the per-kind dispatch onward (the
relaxation probe consults the out-of-crate `relaxation` module before this
point, so `relInfo` and `addend` are the post-relaxation kind information and
addend, the latter already cast to `u64`).  Computes the relocation value
via `relocation_step` — performing the TLS instruction rewrites and emitting
an `R_X86_64_RELATIVE` dynamic relocation where the source does — then
stores the low `relInfo.byte_size` little-endian bytes of the value at the
(possibly advanced) offset, failing when that write would fall outside the
section.  Returns the rewritten section bytes, the modifier for the
following relocation, and the updated relocation writer. -/
def apply_relocation (res : Resolution) (offset_in_section : Nat)
    (relInfo : RelocationKindInfo) (addend : Nat) (section_address : Nat)
    (layout : LayoutInfo) (out : List Nat) (rw : RelocationWriter) :
    Except Err (List Nat × RelocationModifier × RelocationWriter) :=
  match relocation_step res offset_in_section relInfo addend section_address layout out rw with
  | .error e => .error e
  | .ok r =>
      if r.2.1.length < r.2.2.1 + relInfo.byte_size then
        .error (.bail "Relocation outside of bounds of section")
      else
        .ok (spliceBytes r.2.1 r.2.2.1 (leBytes relInfo.byte_size r.1),
          r.2.2.2.1, r.2.2.2.2)

/-! ## The `.eh_frame_hdr` table (claim C6) -/

/-- One `.eh_frame_hdr` binary-search table entry: two `i32` fields. -/
structure EhFrameHdrEntry where
  frame_ptr : Int
  frame_info_ptr : Int
deriving Repr, DecidableEq

/-- The comparison realised by `entries.sort_by_key(|e| e.frame_ptr)`. -/
def ehEntryLE (a b : EhFrameHdrEntry) : Prop := a.frame_ptr ≤ b.frame_ptr

instance : DecidableRel ehEntryLE := fun a b => by unfold ehEntryLE; infer_instance

instance : IsTotal EhFrameHdrEntry ehEntryLE where
  total a b := by unfold ehEntryLE; omega

instance : IsTrans EhFrameHdrEntry ehEntryLE where
  trans a b c := by unfold ehEntryLE; omega

/-- Embeds `sort_eh_frame_hdr_entries`: the bytes of `.eh_frame_hdr` after
the fixed header are viewed as an `EhFrameHdrEntry` array and stably sorted
by `frame_ptr` (Rust `sort_by_key` is a stable sort). -/
def sort_eh_frame_hdr_entries (entries : List EhFrameHdrEntry) : List EhFrameHdrEntry :=
  entries.insertionSort ehEntryLE

/-- Modelled from the spec: `size_of::<EhFrameHdr>()` of the crate's `elf`
module (not among the sources) — four one-byte encoding fields, an `i32`
frame pointer and a `u32` entry count: 12 bytes. -/
def EH_FRAME_HDR_SIZE : Nat := 12

/-- Modelled from the spec: `size_of::<EhFrameHdrEntry>()` of the crate's
`elf` module (not among the sources) — two `i32` fields: 8 bytes. -/
def EH_FRAME_HDR_ENTRY_SIZE : Nat := 8

/-- Embeds `eh_frame_hdr_entry_count`:
`(mem_size - size_of(EhFrameHdr)) / size_of(EhFrameHdrEntry)` in wrapping
`u64` arithmetic, failing when the count does not fit in `u32`. -/
def eh_frame_hdr_entry_count (memSize : Nat) : Except Err Nat :=
  let c := wsub memSize EH_FRAME_HDR_SIZE / EH_FRAME_HDR_ENTRY_SIZE
  if c < 2 ^ 32 then .ok c
  else .error (.bail ".eh_frame_hdr entries overflowed 32 bits")

/-! ## The `.dynamic` table (claim C7) -/

/-- The dynamic-entry tags used by `write_dynamic_entries`, in the order the
source names them. -/
inductive DynamicTag where
  | Init
  | Fini
  | InitArray
  | InitArraySize
  | FiniArray
  | FiniArraySize
  | StrTab
  | StrSize
  | SymTab
  | SymEnt
  | Debug
  | Rela
  | RelaSize
  | RelaEnt
  | RelaCount
  | Flags
  | Flags1
  | Null
deriving Repr, DecidableEq

/-- One tagged `.dynamic` entry. -/
structure DynamicEntry where
  tag : DynamicTag
  value : Nat
deriving Repr, DecidableEq

/-- The reserved number of `.dynamic` entries (`NUM_DYNAMIC_ENTRIES`). -/
def NUM_DYNAMIC_ENTRIES : Nat := 18

/-- Modelled from the spec: `size_of::<SymtabEntry>()` — a 24-byte ELF64
symbol-table entry (the `elf` module is not among the sources). -/
def SYMTAB_ENTRY_SIZE : Nat := 24

/-- Modelled from the spec: `RELA_ENTRY_SIZE` and `size_of::<Rela>()` — a
24-byte ELF64 rela record (the `elf` module is not among the sources). -/
def RELA_ENTRY_SIZE : Nat := 24

/-- Modelled from the spec: the `DT_FLAGS` value `BIND_NOW` (the `elf`
module is not among the sources); standard value 8. -/
def FLAGS_BIND_NOW : Nat := 8

/-- Modelled from the spec: the `DT_FLAGS_1` value `PIE | NOW` (the `elf`
module is not among the sources); standard value `0x08000000 | 0x1`. -/
def FLAGS_1_PIE_NOW : Nat := 0x08000001

/-- The section offsets and sizes the dynamic table reads from the layout. -/
structure DynLayoutInfo where
  initOffset : Nat
  finiOffset : Nat
  initArrayOffset : Nat
  initArraySize : Nat
  finiArrayOffset : Nat
  finiArraySize : Nat
  dynstrOffset : Nat
  dynstrSize : Nat
  dynsymOffset : Nat
  relaDynOffset : Nat
  relaDynSize : Nat
deriving Repr, DecidableEq

/-- Embeds `write_dynamic_entry`: take the first remaining `.dynamic` slot
and fill it with the tagged value; error when no slot remains.  The state is
the remaining slot count and the entries written so far. -/
def write_dynamic_entry (st : Nat × List DynamicEntry) (tag : DynamicTag) (value : Nat) :
    Except Err (Nat × List DynamicEntry) :=
  match st.1 with
  | 0 => .error (.bail "Insufficient dynamic table entries")
  | n + 1 => .ok (n, st.2 ++ [⟨tag, value⟩])

/-- Embeds `InternalLayout::write_dynamic_entries`: asserts that the number
of reserved slots equals `NUM_DYNAMIC_ENTRIES`, then writes the eighteen
entries in declared order, ending with `NULL = 0`. -/
def write_dynamic_entries (slots : Nat) (L : DynLayoutInfo) :
    Except Err (List DynamicEntry) := do
  if slots ≠ NUM_DYNAMIC_ENTRIES then
    throw (.fatal "assertion failed: entries len equals NUM_DYNAMIC_ENTRIES")
  let st ← write_dynamic_entry (slots, []) .Init L.initOffset
  let st ← write_dynamic_entry st .Fini L.finiOffset
  let st ← write_dynamic_entry st .InitArray L.initArrayOffset
  let st ← write_dynamic_entry st .InitArraySize L.initArraySize
  let st ← write_dynamic_entry st .FiniArray L.finiArrayOffset
  let st ← write_dynamic_entry st .FiniArraySize L.finiArraySize
  let st ← write_dynamic_entry st .StrTab L.dynstrOffset
  let st ← write_dynamic_entry st .StrSize L.dynstrSize
  let st ← write_dynamic_entry st .SymTab L.dynsymOffset
  let st ← write_dynamic_entry st .SymEnt SYMTAB_ENTRY_SIZE
  let st ← write_dynamic_entry st .Debug 0
  let st ← write_dynamic_entry st .Rela L.relaDynOffset
  let st ← write_dynamic_entry st .RelaSize L.relaDynSize
  let st ← write_dynamic_entry st .RelaEnt RELA_ENTRY_SIZE
  let st ← write_dynamic_entry st .RelaCount (L.relaDynSize / RELA_ENTRY_SIZE)
  let st ← write_dynamic_entry st .Flags FLAGS_BIND_NOW
  let st ← write_dynamic_entry st .Flags1 FLAGS_1_PIE_NOW
  let st ← write_dynamic_entry st .Null 0
  pure st.2

/-- The eighteen dynamic entries in the order the claim declares them, used
to compare the output of `write_dynamic_entries` against the spec. -/
def expectedDynamicEntries (L : DynLayoutInfo) : List DynamicEntry :=
  [⟨.Init, L.initOffset⟩, ⟨.Fini, L.finiOffset⟩,
   ⟨.InitArray, L.initArrayOffset⟩, ⟨.InitArraySize, L.initArraySize⟩,
   ⟨.FiniArray, L.finiArrayOffset⟩, ⟨.FiniArraySize, L.finiArraySize⟩,
   ⟨.StrTab, L.dynstrOffset⟩, ⟨.StrSize, L.dynstrSize⟩,
   ⟨.SymTab, L.dynsymOffset⟩, ⟨.SymEnt, SYMTAB_ENTRY_SIZE⟩,
   ⟨.Debug, 0⟩, ⟨.Rela, L.relaDynOffset⟩, ⟨.RelaSize, L.relaDynSize⟩,
   ⟨.RelaEnt, RELA_ENTRY_SIZE⟩, ⟨.RelaCount, L.relaDynSize / RELA_ENTRY_SIZE⟩,
   ⟨.Flags, FLAGS_BIND_NOW⟩, ⟨.Flags1, FLAGS_1_PIE_NOW⟩, ⟨.Null, 0⟩]

/-- Embeds the `.dynamic` gate in `InternalLayout::write`: the dynamic table
is written only when `args.pie`; `none` means no `.dynamic` section was
written. -/
def write_dynamic_section (pie : Bool) (slots : Nat) (L : DynLayoutInfo) :
    Except Err (Option (List DynamicEntry)) :=
  if pie then (write_dynamic_entries slots L).map some else .ok none

/-! ## Output provisioning and the final write (claims C9, C10) -/

/-- Embeds the `FileCreator` of `Output`: `background` (chosen when
`args.num_threads > 1`) records whether the one-shot sender is still present
(it is consumed by `set_size`); `regular` records the file size once
`set_size` has run. -/
inductive FileCreator where
  | background (senderPresent : Bool)
  | regular (fileSize : Option Nat)
deriving Repr, DecidableEq

/-- Embeds `Output::new`: background mode when more than one thread,
otherwise regular mode; the sender starts present and the size starts
unset. -/
def Output.new (numThreads : Nat) : FileCreator :=
  if numThreads > 1 then .background true else .regular none

/-- Embeds `Output::set_size`: in background mode the sender is taken — a
second call finds it gone and the `expect` aborts; in regular mode the size
is recorded. -/
def Output.set_size (c : FileCreator) (size : Nat) : Except Err FileCreator :=
  match c with
  | .background true => .ok (.background false)
  | .background false => .error (.fatal "set_size must only be called once")
  | .regular _ => .ok (.regular (some size))

/-- Embeds the entry of `Output::write`: in background mode an assertion
aborts when the sender is still present (meaning `set_size` never ran); in
regular mode a missing file size is a recoverable error.  On success the
sized output is obtained and writing proceeds. -/
def Output.write_gate (c : FileCreator) : Except Err Unit :=
  match c with
  | .background senderPresent =>
      if senderPresent then .error (.fatal "set_size was never called")
      else .ok ()
  | .regular none => .error (.bail "set_size was never called")
  | .regular (some _) => .ok ()

/-- The observable steps of `SizedOutput::write`, in execution order. -/
inductive WriteStep where
  | writeFileContents
  | sortEhFrameHdr
  | makeExecutable
deriving Repr, DecidableEq

/-- Embeds `SizedOutput::write` as a trace over the outcome of
`write_file_contents` (whose error short-circuits via `?`) and of
`make_executable`; the `.eh_frame_hdr` re-partition and sort between them are
pure and cannot fail.  Returns the overall result and the steps that ran. -/
def SizedOutput.write (contents : Except Err Unit) (chmod : Except Err Unit) :
    Except Err Unit × List WriteStep :=
  match contents with
  | .error e => (.error e, [.writeFileContents])
  | .ok () =>
      match chmod with
      | .error e => (.error e, [.writeFileContents, .sortEhFrameHdr, .makeExecutable])
      | .ok () => (.ok (), [.writeFileContents, .sortEhFrameHdr, .makeExecutable])

/-! ## Theorems -/

/-- The length of a little-endian encoding is the requested byte count. -/
theorem leBytes_length (n : Nat) : ∀ v, (leBytes n v).length = n := by
  induction n with
  | zero => intro v; rfl
  | succ n ih => intro v; simp [leBytes, ih]

/-- Decoding a little-endian encoding recovers the value modulo `256 ^ n`. -/
theorem fromLeBytes_leBytes (n : Nat) : ∀ v, fromLeBytes (leBytes n v) = v % 256 ^ n := by
  induction n with
  | zero => intro v; simp [leBytes, fromLeBytes, Nat.mod_one]
  | succ n ih =>
      intro v
      simp only [leBytes, fromLeBytes, ih]
      rw [Nat.mod_mod_of_dvd _ dvd_rfl, pow_succ', ← Nat.mod_mul]

/-- Signed 32-bit decoding of the four little-endian bytes of a `u64` whose
`i64` reinterpretation fits `i32` recovers that reinterpretation. -/
theorem sdecode32_leBytes (d : Nat) (hd : d < U64MOD) (hfit : fitsI32 d) :
    sdecode32 (leBytes 4 d) = u64AsI64 d := by
  unfold fitsI32 at hfit
  unfold U64MOD at hd
  unfold sdecode32 u64AsI64
  rw [fromLeBytes_leBytes]
  have h4 : (256 : Nat) ^ 4 = 2 ^ 32 := by norm_num
  rw [h4]
  split_ifs <;> omega

/-- An inactive relocation writer ignores `write_relocation`. -/
theorem write_relocation_inactive (w : RelocationWriter) (p a : Nat)
    (hact : w.is_active = false) : w.write_relocation p a = .ok w := by
  simp [RelocationWriter.write_relocation, hact]

/-- A successful `write_relocation` on an active writer appends exactly one
`R_X86_64_RELATIVE` record. -/
theorem write_relocation_ok_active (w w' : RelocationWriter) (p a : Nat)
    (hact : w.is_active = true) (h : w.write_relocation p a = .ok w') :
    w'.relaDynWritten = w.relaDynWritten ++ [⟨p, a, R_X86_64_RELATIVE⟩] ∧
    w'.is_active = true := by
  unfold RelocationWriter.write_relocation at h
  rw [hact] at h
  simp only [Bool.not_true] at h
  rw [if_neg (by simp)] at h
  split at h
  · cases h
  · cases h
    exact ⟨rfl, rfl⟩

/-- A successful `relocation_step` of any kind other than `Absolute` leaves
the relocation writer untouched: only the `Absolute` arm emits a dynamic
relocation. -/
theorem relocation_step_rw_eq (res : Resolution) (offset : Nat)
    (relInfo : RelocationKindInfo) (addend sa : Nat) (layout : LayoutInfo)
    (out : List Nat) (rw : RelocationWriter)
    (r : Nat × List Nat × Nat × RelocationModifier × RelocationWriter)
    (hk : relInfo.kind ≠ .Absolute)
    (h : relocation_step res offset relInfo addend sa layout out rw = .ok r) :
    r.2.2.2.2 = rw := by
  unfold relocation_step at h
  cases hkind : relInfo.kind <;> simp only [hkind] at h
  case Absolute => exact absurd hkind hk
  case Relative => cases h; rfl
  case GotRelative =>
    split at h
    · cases h; rfl
    · cases h
  case PltRelative =>
    split at h
    · cases h; rfl
    · split at h
      · cases h; rfl
      · cases h
  case TlsGd =>
    split at h
    · split at h
      · cases h
      · split at h
        · cases h
        · cases h; rfl
    · split at h
      · cases h; rfl
      · cases h
  case TlsLd =>
    split at h
    · split at h
      · cases h
      · split at h
        · cases h
        · cases h; rfl
    · split at h
      · cases h; rfl
      · cases h
  case DtpOff =>
    split at h
    · cases h; rfl
    · cases h
  case GotTpOff =>
    split at h
    · cases h; rfl
    · cases h
  case TpOff => cases h; rfl
  case Unsupported => cases h

/-- A successful `apply_relocation` of any kind other than `Absolute`
returns the relocation writer untouched. -/
theorem apply_relocation_rw_eq (res : Resolution) (offset : Nat)
    (relInfo : RelocationKindInfo) (addend sa : Nat) (layout : LayoutInfo)
    (out : List Nat) (rw : RelocationWriter) (out' : List Nat)
    (m : RelocationModifier) (rw' : RelocationWriter)
    (hk : relInfo.kind ≠ .Absolute)
    (h : apply_relocation res offset relInfo addend sa layout out rw =
      .ok (out', m, rw')) : rw' = rw := by
  unfold apply_relocation at h
  cases hstep : relocation_step res offset relInfo addend sa layout out rw with
  | error e => rw [hstep] at h; cases h
  | ok r =>
      simp only [hstep] at h
      by_cases hlen : r.2.1.length < r.2.2.1 + relInfo.byte_size
      · rw [if_pos hlen] at h
        cases h
      · rw [if_neg hlen] at h
        cases h
        exact relocation_step_rw_eq res offset relInfo addend sa layout out rw r hk hstep

/-- C6: after emission, the orchestrator post-pass sorts the
`EhFrameHdrEntry` array so that it is non-decreasing by the signed 32-bit
`frame_ptr` field while remaining a permutation of the entries written
during emission, and the `entry_count` stored in the header equals
`(mem_size - sizeof(EhFrameHdr)) / sizeof(EhFrameHdrEntry)`, failing when
that count overflows 32 bits. -/
theorem eh_frame_hdr_sorted_and_counted (entries : List EhFrameHdrEntry) (memSize : Nat)
    (hm : EH_FRAME_HDR_SIZE ≤ memSize) (hmod : memSize < U64MOD) :
    List.Sorted ehEntryLE (sort_eh_frame_hdr_entries entries) ∧
    (sort_eh_frame_hdr_entries entries).Perm entries ∧
    ((memSize - EH_FRAME_HDR_SIZE) / EH_FRAME_HDR_ENTRY_SIZE < 2 ^ 32 →
      eh_frame_hdr_entry_count memSize =
        .ok ((memSize - EH_FRAME_HDR_SIZE) / EH_FRAME_HDR_ENTRY_SIZE)) ∧
    (2 ^ 32 ≤ (memSize - EH_FRAME_HDR_SIZE) / EH_FRAME_HDR_ENTRY_SIZE →
      eh_frame_hdr_entry_count memSize =
        .error (.bail ".eh_frame_hdr entries overflowed 32 bits")) := by
  have hw : wsub memSize EH_FRAME_HDR_SIZE = memSize - EH_FRAME_HDR_SIZE := by
    unfold wsub U64MOD EH_FRAME_HDR_SIZE at *
    omega
  refine ⟨List.sorted_insertionSort _ _, List.perm_insertionSort _ _, ?_, ?_⟩
  · intro h
    unfold eh_frame_hdr_entry_count
    rw [hw, if_pos h]
  · intro h
    unfold eh_frame_hdr_entry_count
    rw [hw, if_neg (by omega)]

/-- Witness for C6 at a concrete out-of-order entry list and a 28-byte
`.eh_frame_hdr` (two entries). -/
theorem eh_frame_hdr_sorted_and_counted_witness :
    EH_FRAME_HDR_SIZE ≤ 28 ∧ 28 < U64MOD ∧
    (List.Sorted ehEntryLE
        (sort_eh_frame_hdr_entries [⟨3, 10⟩, ⟨1, 20⟩]) ∧
      (sort_eh_frame_hdr_entries [⟨3, 10⟩, ⟨1, 20⟩]).Perm [⟨3, 10⟩, ⟨1, 20⟩] ∧
      ((28 - EH_FRAME_HDR_SIZE) / EH_FRAME_HDR_ENTRY_SIZE < 2 ^ 32 →
        eh_frame_hdr_entry_count 28 =
          .ok ((28 - EH_FRAME_HDR_SIZE) / EH_FRAME_HDR_ENTRY_SIZE)) ∧
      (2 ^ 32 ≤ (28 - EH_FRAME_HDR_SIZE) / EH_FRAME_HDR_ENTRY_SIZE →
        eh_frame_hdr_entry_count 28 =
          .error (.bail ".eh_frame_hdr entries overflowed 32 bits"))) :=
  ⟨by decide, by decide,
    eh_frame_hdr_sorted_and_counted [⟨3, 10⟩, ⟨1, 20⟩] 28 (by decide) (by decide)⟩

set_option maxHeartbeats 1600000 in
/-- C7: the `.dynamic` section is written only when `pie` is set, and then
contains exactly `NUM_DYNAMIC_ENTRIES = 18` tagged entries in the declared
order (INIT, FINI, INIT_ARRAY, INIT_ARRAY_SZ, FINI_ARRAY, FINI_ARRAY_SZ,
STRTAB, STRSZ, SYMTAB, SYMENT, DEBUG, RELA, RELASZ, RELAENT, RELACOUNT,
FLAGS, FLAGS1, NULL), the last being `NULL` with value 0; a reserved slot
count different from the eighteen writes is an error. -/
theorem dynamic_entries_exact (pie : Bool) (slots : Nat) (L : DynLayoutInfo) :
    (pie = false → write_dynamic_section pie slots L = .ok none) ∧
    (pie = true → slots = NUM_DYNAMIC_ENTRIES →
      write_dynamic_section pie slots L = .ok (some (expectedDynamicEntries L)) ∧
      (expectedDynamicEntries L).length = NUM_DYNAMIC_ENTRIES ∧
      (expectedDynamicEntries L).getLast? = some ⟨.Null, 0⟩) ∧
    (pie = true → slots ≠ NUM_DYNAMIC_ENTRIES →
      write_dynamic_section pie slots L =
        .error (.fatal "assertion failed: entries len equals NUM_DYNAMIC_ENTRIES")) := by
  refine ⟨?_, ?_, ?_⟩
  · intro h; simp [write_dynamic_section, h]
  · intro h hs
    subst h; subst hs
    exact ⟨rfl, rfl, rfl⟩
  · intro h hs
    subst h
    unfold write_dynamic_section write_dynamic_entries
    rw [if_pos rfl, if_pos hs]
    rfl

/-- Witness for C7 with `pie = true`, the reserved eighteen slots, and a
concrete layout. -/
theorem dynamic_entries_exact_witness :
    ((true : Bool) = false →
      write_dynamic_section true 18 ⟨1, 2, 3, 4, 5, 6, 7, 8, 9, 10, 48⟩ = .ok none) ∧
    ((true : Bool) = true → 18 = NUM_DYNAMIC_ENTRIES →
      write_dynamic_section true 18 ⟨1, 2, 3, 4, 5, 6, 7, 8, 9, 10, 48⟩ =
        .ok (some (expectedDynamicEntries ⟨1, 2, 3, 4, 5, 6, 7, 8, 9, 10, 48⟩)) ∧
      (expectedDynamicEntries ⟨1, 2, 3, 4, 5, 6, 7, 8, 9, 10, 48⟩).length =
        NUM_DYNAMIC_ENTRIES ∧
      (expectedDynamicEntries ⟨1, 2, 3, 4, 5, 6, 7, 8, 9, 10, 48⟩).getLast? =
        some ⟨.Null, 0⟩) ∧
    ((true : Bool) = true → 18 ≠ NUM_DYNAMIC_ENTRIES →
      write_dynamic_section true 18 ⟨1, 2, 3, 4, 5, 6, 7, 8, 9, 10, 48⟩ =
        .error (.fatal "assertion failed: entries len equals NUM_DYNAMIC_ENTRIES")) :=
  dynamic_entries_exact true 18 ⟨1, 2, 3, 4, 5, 6, 7, 8, 9, 10, 48⟩

/-- C9: the output file is never made executable before emission has fully
succeeded: when `write_file_contents` fails — for example with the GOT
under-allocation diagnostic that `process_resolution` produces on an
exhausted GOT — `SizedOutput::write` returns that error and the chmod step
never runs; `make_executable` runs only after the contents write and the
`.eh_frame_hdr` sort completed without error. -/
theorem make_executable_only_after_success (e : Err) (chmod : Except Err Unit)
    (template : List Nat) (s : PltGotWriter) (res : Resolution) (rw : RelocationWriter)
    (g : Nat) (hgot : s.got = []) (hres : res.got_address = some g) :
    (SizedOutput.write (.error e) chmod).1 = .error e ∧
    WriteStep.makeExecutable ∉ (SizedOutput.write (.error e) chmod).2 ∧
    (∀ contents : Except Err Unit,
      WriteStep.makeExecutable ∈ (SizedOutput.write contents chmod).2 → contents = .ok ()) ∧
    process_resolution template s res rw =
      .error (.bail "Didn't allocate enough space in GOT") := by
  refine ⟨rfl, by simp [SizedOutput.write], ?_, ?_⟩
  · intro contents hmem
    match contents with
    | .ok () => rfl
    | .error e' => simp [SizedOutput.write] at hmem
  · simp [process_resolution, hres, hgot]

/-- Witness for C9 at a concrete failing contents result and an exhausted
GOT writer. -/
theorem make_executable_only_after_success_witness :
    (SizedOutput.write (.error (.bail "Didn't allocate enough space in GOT")) (.ok ())).1 =
      .error (.bail "Didn't allocate enough space in GOT") ∧
    WriteStep.makeExecutable ∉
      (SizedOutput.write (.error (.bail "Didn't allocate enough space in GOT")) (.ok ())).2 ∧
    (∀ contents : Except Err Unit,
      WriteStep.makeExecutable ∈ (SizedOutput.write contents (.ok ())).2 →
        contents = .ok ()) ∧
    process_resolution [] ⟨[], [], 0, [], 0, [], 0, 0⟩ ⟨0, some 0, none, .Got⟩ ⟨false, 0, []⟩ =
      .error (.bail "Didn't allocate enough space in GOT") :=
  make_executable_only_after_success (.bail "Didn't allocate enough space in GOT") (.ok ())
    [] ⟨[], [], 0, [], 0, [], 0, 0⟩ ⟨0, some 0, none, .Got⟩ ⟨false, 0, []⟩ 0 rfl rfl

/-- C10: calling `Output::write` without a prior `Output::set_size` does not
silently write anything — in single-threaded mode (`num_threads == 1`) it
returns a recoverable error saying `set_size` was never called, and in
background mode (`num_threads > 1`) a second `set_size`, or `write` with
`set_size` never having been called, is a contract violation that aborts
(a failed assertion or `expect`) rather than proceeding. -/
theorem output_write_requires_set_size (n : Nat) (hn : 1 < n) (size size' : Nat) :
    Output.write_gate (Output.new 1) = .error (.bail "set_size was never called") ∧
    Output.write_gate (Output.new n) = .error (.fatal "set_size was never called") ∧
    (∀ c, Output.set_size (Output.new n) size = .ok c →
      Output.set_size c size' = .error (.fatal "set_size must only be called once") ∧
      Output.write_gate c = .ok ()) := by
  have hb : Output.new n = .background true := by simp [Output.new, hn]
  refine ⟨rfl, by rw [hb]; rfl, ?_⟩
  intro c hc
  rw [hb] at hc
  have hcc : FileCreator.background false = c := by
    simpa [Output.set_size] using hc
  subst hcc
  exact ⟨rfl, rfl⟩

/-- Witness for C10 with two threads. -/
theorem output_write_requires_set_size_witness :
    Output.write_gate (Output.new 1) = .error (.bail "set_size was never called") ∧
    Output.write_gate (Output.new 2) = .error (.fatal "set_size was never called") ∧
    (∀ c, Output.set_size (Output.new 2) 4096 = .ok c →
      Output.set_size c 4096 = .error (.fatal "set_size must only be called once") ∧
      Output.write_gate c = .ok ()) :=
  output_write_requires_set_size 2 (by decide) 4096 4096

/-- A wrapping subtraction is reduced modulo `2 ^ 64`. -/
theorem wsub_lt (a b : Nat) : wsub a b < U64MOD := by
  unfold wsub U64MOD
  exact Nat.mod_lt _ (by norm_num)

/-- Splicing inside the bounds of a byte list preserves its length. -/
theorem spliceBytes_length (out repl : List Nat) (o : Nat)
    (h : o + repl.length ≤ out.length) :
    (spliceBytes out o repl).length = out.length := by
  simp [spliceBytes, List.length_take, List.length_drop]
  omega

/-- Composing the twelve-byte instruction rewrite at `o - 4` with the
four-byte immediate write at `o + 8` yields the four contiguous regions of
the GD-to-LE transformation. -/
theorem spliceBytes_spliceBytes (out T L : List Nat) (o : Nat)
    (hT : T.length = 12) (hL : L.length = 4) (h4 : 4 ≤ o)
    (hlen : o + 12 ≤ out.length) :
    spliceBytes (spliceBytes out (o - 4) T) (o + 8) L =
      out.take (o - 4) ++ T ++ L ++ out.drop (o + 12) := by
  have hAlen : (out.take (o - 4)).length = o - 4 := by
    rw [List.length_take]; omega
  have hATlen : (out.take (o - 4) ++ T).length = o + 8 := by
    rw [List.length_append, hAlen, hT]; omega
  have hidx : o - 4 + T.length = o + 8 := by omega
  have e1 : spliceBytes out (o - 4) T =
      (out.take (o - 4) ++ T) ++ out.drop (o + 8) := by
    unfold spliceBytes
    rw [hidx]
  have e2 : (spliceBytes out (o - 4) T).take (o + 8) = out.take (o - 4) ++ T := by
    rw [e1, List.take_left' hATlen]
  have e3 : (spliceBytes out (o - 4) T).drop (o + 8 + 4) = out.drop (o + 12) := by
    rw [e1, ← List.drop_drop 4 (o + 8), List.drop_left' hATlen, List.drop_drop]
  have router : spliceBytes (spliceBytes out (o - 4) T) (o + 8) L =
      (spliceBytes out (o - 4) T).take (o + 8) ++ L ++
        (spliceBytes out (o - 4) T).drop (o + 8 + L.length) := by
    unfold spliceBytes
    rfl
  rw [router, hL, e2, e3]

/-- The relocation-writer component of a successful `finishGotPlt`: with a
`needsRelocation` flag equal to the writer's own active flag, an inactive
writer comes back untouched while an active one gains exactly one
`R_X86_64_RELATIVE` record for `(got_address, value)` — the PLT emission
never touches the writer. -/
theorem finishGotPlt_rw (template : List Nat) (s : PltGotWriter) (res : Resolution)
    (rw : RelocationWriter) (g v : Nat) (sp : PltGotWriter) (rwp : RelocationWriter)
    (h : finishGotPlt template s res rw g rw.is_active v = .ok (sp, rwp)) :
    (rw.is_active = false → rwp = rw) ∧
    (rw.is_active = true →
      rwp.relaDynWritten = rw.relaDynWritten ++ [⟨g, v, R_X86_64_RELATIVE⟩]) := by
  unfold finishGotPlt at h
  cases hgot : s.got with
  | nil => rw [hgot] at h; cases h
  | cons g0 rest =>
      simp only [hgot] at h
      cases hact : rw.is_active with
      | false =>
          refine ⟨fun _ => ?_, fun htrue => absurd htrue (by simp [hact])⟩
          simp only [hact, Bool.false_eq_true, if_false, pure_bind] at h
          split at h
          · cases h; rfl
          · split at h
            · cases h
            · split at h
              · cases h
              · split at h
                · cases h
                · split at h
                  · cases h; rfl
                  · cases h
      | true =>
          refine ⟨fun hfalse => absurd hfalse (by simp [hact]), fun _ => ?_⟩
          simp only [hact, if_true] at h
          cases hw : rw.write_relocation g v with
          | error e => simp [hw, Bind.bind, Except.bind] at h
          | ok rw2 =>
              simp only [hw, Bind.bind, Except.bind, Pure.pure, Except.pure] at h
              have hap := (write_relocation_ok_active rw rw2 g v hact hw).1
              split at h
              · cases h; exact hap
              · split at h
                · cases h
                · split at h
                  · cases h
                  · split at h
                    · cases h
                    · split at h
                      · cases h; exact hap
                      · cases h

/-- The `Absolute` arm of `apply_relocation`: on success, when the writer is
active and the address non-zero one `R_X86_64_RELATIVE` record for
`(place, address)` is appended and zero is written at the place; otherwise
the writer is untouched and `address + addend` is written. -/
theorem apply_relocation_absolute (res : Resolution) (offset : Nat)
    (relInfo : RelocationKindInfo) (addend sa : Nat) (layout : LayoutInfo)
    (out : List Nat) (rw : RelocationWriter) (out' : List Nat)
    (m : RelocationModifier) (rw' : RelocationWriter)
    (hk : relInfo.kind = .Absolute)
    (h : apply_relocation res offset relInfo addend sa layout out rw =
      .ok (out', m, rw')) :
    (rw.is_active = true ∧ res.address ≠ 0 →
      rw'.relaDynWritten = rw.relaDynWritten ++
        [⟨wadd sa offset, res.address, R_X86_64_RELATIVE⟩] ∧
      out' = spliceBytes out offset (leBytes relInfo.byte_size 0)) ∧
    (¬ (rw.is_active = true ∧ res.address ≠ 0) →
      rw' = rw ∧
      out' = spliceBytes out offset (leBytes relInfo.byte_size (wadd res.address addend))) := by
  unfold apply_relocation at h
  cases hstep : relocation_step res offset relInfo addend sa layout out rw with
  | error e => rw [hstep] at h; cases h
  | ok r =>
      simp only [hstep] at h
      by_cases hlen : r.2.1.length < r.2.2.1 + relInfo.byte_size
      · rw [if_pos hlen] at h; cases h
      · rw [if_neg hlen] at h
        cases h
        unfold relocation_step at hstep
        simp only [hk] at hstep
        by_cases hcond : rw.is_active = true ∧ res.address ≠ 0
        · rw [if_pos hcond] at hstep
          cases hw : rw.write_relocation (wadd sa offset) res.address with
          | error e => rw [hw] at hstep; cases hstep
          | ok rw2 =>
              rw [hw] at hstep
              simp only [Except.map] at hstep
              cases hstep
              refine ⟨fun _ => ⟨(write_relocation_ok_active rw rw2 _ _ hcond.1 hw).1, rfl⟩,
                fun hc => absurd hcond hc⟩
        · rw [if_neg hcond] at hstep
          cases hstep
          exact ⟨fun hc => absurd hc hcond, fun _ => ⟨rfl, rfl⟩⟩

/-- Soundness of the carving walk: whenever `splitWalk` succeeds starting
from a cursor whose position equals the running `offset`, each allocation is
carved at exactly its own `file_offset` with exactly `file_size` bytes, the
carved slices are in strictly advancing position order, and the allocation
offsets never regressed past the end of the previously carved section. -/
theorem splitWalk_ok_spec (l : List SectionAllocation) :
    ∀ (data : Cursor) (offset : Nat) (r : List (Nat × Slice)),
      splitWalk l data offset = .ok r → data.pos = offset →
      r = l.map (fun a => (a.id, ⟨a.offset, a.size⟩)) ∧
      (∀ q ∈ r, offset ≤ q.2.start) ∧
      List.Pairwise (fun q q' => q.2.start + q.2.len ≤ q'.2.start) r ∧
      List.Chain' (fun a b => a.offset + a.size ≤ b.offset) l := by
  induction l with
  | nil =>
      intro data offset r h _
      simp only [splitWalk] at h
      cases h
      simp
  | cons a rest ih =>
      intro data offset r h hpos
      simp only [splitWalk] at h
      split at h
      · cases h
      · split at h
        · cases h
        · rename_i hlt hlen
          split at h
          · cases h
          · rename_i r' hrec
            cases h
            have hstart : data.pos + (a.offset - offset) = a.offset := by omega
            obtain ⟨hmap, hge, hpw, hch⟩ := ih _ _ _ hrec (by simp; omega)
            refine ⟨?_, ?_, ?_, ?_⟩
            · simp only [List.map_cons, hstart, hmap]
            · intro q hq
              rcases List.mem_cons.mp hq with hq | hq
              · subst hq; simp only [hstart]; omega
              · have := hge q hq
                simp only [hstart] at this ⊢
                omega
            · refine List.Pairwise.cons ?_ hpw
              intro q hq
              have := hge q hq
              simp only [hstart]
              omega
            · cases rest with
              | nil => simp
              | cons b rest' =>
                  refine List.chain'_cons.mpr ⟨?_, hch⟩
                  have hb : (b.id, (⟨b.offset, b.size⟩ : Slice)) ∈ r' := by
                    rw [hmap]; exact List.mem_cons_self _ _
                  simpa using hge _ hb

/-- C1: Stage A of splitting the output into sections sorts the section
allocations ascending by `(file_offset, file_offset + file_size)` and walks
the mmap as a cursor, skipping `file_offset - cursor` padding bytes and
carving a sub-slice of exactly `file_size` bytes per section; for every
layout on which it succeeds, the resulting slices are pairwise disjoint and
each slice starts at its section's `file_offset`, and the sorted offsets
never regress past the end of the previously carved section — a regression
makes the operation fail fatally rather than produce overlapping slices. -/
theorem split_output_into_sections_disjoint (allocations : List SectionAllocation)
    (mmapLen : Nat) (r : List (Nat × Slice))
    (h : split_output_into_sections allocations mmapLen = .ok r) :
    r = (allocations.insertionSort allocLE).map (fun a => (a.id, ⟨a.offset, a.size⟩)) ∧
    (∀ a ∈ allocations, (a.id, (⟨a.offset, a.size⟩ : Slice)) ∈ r) ∧
    List.Pairwise (fun q q' => sliceDisjoint q.2 q'.2) r ∧
    List.Chain' (fun a b => a.offset + a.size ≤ b.offset)
      (allocations.insertionSort allocLE) := by
  obtain ⟨hmap, _, hpw, hch⟩ := splitWalk_ok_spec _ _ _ _ h rfl
  refine ⟨hmap, ?_, ?_, hch⟩
  · intro a ha
    rw [hmap]
    exact List.mem_map_of_mem _
      ((List.perm_insertionSort allocLE allocations).mem_iff.mpr ha)
  · exact hpw.imp (fun h => Or.inl h)

/-- Witness for C1: two out-of-order, gapped sections over an 8-byte mmap. -/
theorem split_output_into_sections_disjoint_witness :
    [((1 : Nat), (⟨0, 2⟩ : Slice)), (0, ⟨4, 3⟩)] =
      (([⟨0, 4, 3⟩, ⟨1, 0, 2⟩] : List SectionAllocation).insertionSort allocLE).map
        (fun a => (a.id, ⟨a.offset, a.size⟩)) ∧
    (∀ a ∈ ([⟨0, 4, 3⟩, ⟨1, 0, 2⟩] : List SectionAllocation),
      (a.id, (⟨a.offset, a.size⟩ : Slice)) ∈ [((1 : Nat), (⟨0, 2⟩ : Slice)), (0, ⟨4, 3⟩)]) ∧
    List.Pairwise (fun q q' => sliceDisjoint q.2 q'.2)
      [((1 : Nat), (⟨0, 2⟩ : Slice)), (0, ⟨4, 3⟩)] ∧
    List.Chain' (fun a b => a.offset + a.size ≤ b.offset)
      (([⟨0, 4, 3⟩, ⟨1, 0, 2⟩] : List SectionAllocation).insertionSort allocLE) :=
  split_output_into_sections_disjoint [⟨0, 4, 3⟩, ⟨1, 0, 2⟩] 8
    [(1, ⟨0, 2⟩), (0, ⟨4, 3⟩)] (by rfl)

/-- C8 counterexample: a writer state with an unused `.rela.plt` slot passes
both residual validations — `PltGotWriter::validate_empty` inspects only the
GOT and PLT residuals, and `RelocationWriter::validate_empty` only the
`.rela.dyn` residual — so an over-allocated `.rela.plt` is not an error at
validation time, refuting the claim for that slot kind. -/
theorem rela_plt_residual_unchecked :
    PltGotWriter.validate_empty ⟨[], [], 0, [], 3, [], 0, 0⟩ = .ok () ∧
    RelocationWriter.validate_empty ⟨true, 0, []⟩ = .ok () ∧
    (⟨[], [], 0, [], 3, [], 0, 0⟩ : PltGotWriter).relaPltRemaining ≠ 0 := by
  refine ⟨rfl, rfl, by decide⟩

/-- C8 (amended): writing when no slot remains is an error for each of the
four slot kinds — GOT and PLT exhaustion are reported by
`process_resolution`, `.rela.dyn` exhaustion by `write_relocation`, and
`.rela.plt` exhaustion is a slice panic in `PltGotWriter::apply_relocation`
— and end-of-write validation rejects non-empty GOT, PLT and `.rela.dyn`
residuals; the `.rela.plt` residual, however, is not covered by any
validation. -/
theorem slot_exhaustion_checks (template : List Nat) (s : PltGotWriter)
    (res : Resolution) (rw : RelocationWriter) (g p a : Nat) (rel : PltRelocation)
    (hgot : s.got = []) (hres : res.got_address = some g) :
    process_resolution template s res rw =
      .error (.bail "Didn't allocate enough space in GOT") ∧
    (∀ s' : PltGotWriter, s'.got = [0] → s'.pltRemaining = 0 →
      ∀ res' : Resolution, res'.got_address = some g → res'.plt_address = some p →
        res'.kind = .Got → ∀ rw' : RelocationWriter, rw'.is_active = false →
          process_resolution template s' res' rw' =
            .error (.bail "Didn't allocate enough space in PLT")) ∧
    (rw.is_active = true → rw.relaDynRemaining = 0 →
      rw.write_relocation p a = .error (.bail "insufficient allocation to .rela.dyn")) ∧
    (s.relaPltRemaining = 0 → s.apply_relocation rel =
      .error (.fatal "slice split past the end of .rela.plt")) ∧
    (∀ w : RelocationWriter, w.validate_empty = .ok () ↔ w.relaDynRemaining = 0) ∧
    (∀ t : PltGotWriter, t.validate_empty = .ok () ↔ t.got = [] ∧ t.pltRemaining = 0) := by
  refine ⟨?_, ?_, ?_, ?_, ?_, ?_⟩
  · simp [process_resolution, hres, hgot]
  · intro s' hg' hp' res' hga' hpa' hk' rw' hact'
    simp only [process_resolution, hga', hg', hk', List.isEmpty_cons, if_neg]
    simp only [finishGotPlt, hact', hpa', hp', hg', RelocationWriter.write_relocation]
    rfl
  · intro hact hrem
    simp [RelocationWriter.write_relocation, hact, hrem]
  · intro hrem
    simp [PltGotWriter.apply_relocation, hrem]
  · intro w
    unfold RelocationWriter.validate_empty
    constructor
    · intro h
      by_contra hne
      rw [if_neg hne] at h
      exact Except.noConfusion h
    · intro h
      rw [if_pos h]
  · intro t
    unfold PltGotWriter.validate_empty
    constructor
    · intro h
      by_contra hne
      have : ¬ t.got.isEmpty = true ∨ t.pltRemaining ≠ 0 := by
        rcases Decidable.not_and_iff_or_not.mp hne with h1 | h2
        · exact Or.inl (by simpa [List.isEmpty_iff] using h1)
        · exact Or.inr h2
      rw [if_pos this] at h
      exact Except.noConfusion h
    · intro h
      rw [if_neg]
      simp [h.1, h.2]

/-- Witness for the amended C8 at concrete exhausted writer states. -/
theorem slot_exhaustion_checks_witness :
    (process_resolution [] ⟨[], [], 0, [], 7, [], 0, 0⟩ ⟨5, some 16, none, .Got⟩
        ⟨false, 0, []⟩ = .error (.bail "Didn't allocate enough space in GOT") ∧
      (∀ s' : PltGotWriter, s'.got = [0] → s'.pltRemaining = 0 →
        ∀ res' : Resolution, res'.got_address = some 16 → res'.plt_address = some 32 →
          res'.kind = .Got → ∀ rw' : RelocationWriter, rw'.is_active = false →
            process_resolution [] s' res' rw' =
              .error (.bail "Didn't allocate enough space in PLT")) ∧
      ((⟨false, 0, []⟩ : RelocationWriter).is_active = true →
        (⟨false, 0, []⟩ : RelocationWriter).relaDynRemaining = 0 →
        RelocationWriter.write_relocation ⟨false, 0, []⟩ 32 9 =
          .error (.bail "insufficient allocation to .rela.dyn")) ∧
      ((⟨[], [], 0, [], 7, [], 0, 0⟩ : PltGotWriter).relaPltRemaining = 0 →
        PltGotWriter.apply_relocation ⟨[], [], 0, [], 7, [], 0, 0⟩ ⟨1, 2⟩ =
          .error (.fatal "slice split past the end of .rela.plt")) ∧
      (∀ w : RelocationWriter, w.validate_empty = .ok () ↔ w.relaDynRemaining = 0) ∧
      (∀ t : PltGotWriter, t.validate_empty = .ok () ↔
        t.got = [] ∧ t.pltRemaining = 0)) :=
  slot_exhaustion_checks [] ⟨[], [], 0, [], 7, [], 0, 0⟩ ⟨5, some 16, none, .Got⟩
    ⟨false, 0, []⟩ 16 32 9 ⟨1, 2⟩ rfl rfl

/-- C5: for a resolution whose kind is not `GotTlsDouble`, `GotTlsOffset` or
`IFunc` (the default branch), `process_resolution` consumes exactly one GOT
slot and either stores `res.address` into it, or, when the relocation writer
is active, leaves the slot's zero initial value in place (writing zero) and
emits an `R_X86_64_RELATIVE` dynamic relocation with `place = got_address`
and `addend = res.address`. -/
theorem default_got_entry (template : List Nat) (s : PltGotWriter)
    (res : Resolution) (rw : RelocationWriter) (g : Nat) (rest : List Nat)
    (hk : res.kind = .Address ∨ res.kind = .Got ∨ res.kind = .Plt)
    (hga : res.got_address = some g) (hpa : res.plt_address = none)
    (hgot : s.got = 0 :: rest) :
    (rw.is_active = false →
      process_resolution template s res rw =
        .ok ({ s with got := rest, gotWritten := s.gotWritten ++ [res.address] }, rw)) ∧
    (∀ n, rw.is_active = true → rw.relaDynRemaining = n + 1 →
      process_resolution template s res rw =
        .ok ({ s with got := rest, gotWritten := s.gotWritten ++ [0] },
          { rw with relaDynRemaining := n,
                    relaDynWritten := rw.relaDynWritten ++
                      [⟨g, res.address, R_X86_64_RELATIVE⟩] })) := by
  constructor
  · intro hact
    rcases hk with hk | hk | hk <;>
      simp [process_resolution, hga, hgot, hk, finishGotPlt, hact, hpa] <;> rfl
  · intro n hact hrem
    rcases hk with hk | hk | hk <;>
      simp [process_resolution, hga, hgot, hk, finishGotPlt, hact, hrem, hpa,
        RelocationWriter.write_relocation]

/-- Witness for C5 with an active writer, a zeroed one-slot GOT and a
concrete resolution. -/
theorem default_got_entry_witness :
    (RelocationWriter.is_active ⟨true, 2, []⟩ = false →
      process_resolution [] ⟨[0], [], 0, [], 0, [], 0, 0⟩ ⟨0xABC, some 0x10, none, .Got⟩
          ⟨true, 2, []⟩ =
        .ok (⟨[], [0xABC], 0, [], 0, [], 0, 0⟩, ⟨true, 2, []⟩)) ∧
    (∀ n, RelocationWriter.is_active ⟨true, 2, []⟩ = true →
      RelocationWriter.relaDynRemaining ⟨true, 2, []⟩ = n + 1 →
      process_resolution [] ⟨[0], [], 0, [], 0, [], 0, 0⟩ ⟨0xABC, some 0x10, none, .Got⟩
          ⟨true, 2, []⟩ =
        .ok (⟨[], [0], 0, [], 0, [], 0, 0⟩,
          ⟨true, n, [⟨0x10, 0xABC, R_X86_64_RELATIVE⟩]⟩)) := by
  have h := default_got_entry [] ⟨[0], [], 0, [], 0, [], 0, 0⟩
    ⟨0xABC, some 0x10, none, .Got⟩ ⟨true, 2, []⟩ 0x10 [] (Or.inr (Or.inl rfl)) rfl rfl rfl
  exact h

/-- C2 counterexample: with an active relocation writer, the default GOT
branch of `process_resolution` emits an `R_X86_64_RELATIVE` entry even though
the target address is zero — the `address != 0` gate exists only in
`apply_relocation` — refuting the claim's "only if the target address is
non-zero" direction for GOT-entry writes. -/
theorem relative_emitted_for_zero_address :
    process_resolution [] ⟨[0], [], 0, [], 0, [], 0, 0⟩ ⟨0, some 8, none, .Got⟩
        ⟨true, 1, []⟩ =
      .ok (⟨[], [0], 0, [], 0, [], 0, 0⟩, ⟨true, 0, [⟨8, 0, R_X86_64_RELATIVE⟩]⟩) ∧
    (⟨0, some 8, none, .Got⟩ : Resolution).address = 0 ∧
    (⟨8, 0, R_X86_64_RELATIVE⟩ : Rela) ∈
      RelocationWriter.relaDynWritten ⟨true, 0, [⟨8, 0, R_X86_64_RELATIVE⟩]⟩ := by
  refine ⟨?_, rfl, by simp⟩
  have h := (default_got_entry [] ⟨[0], [], 0, [], 0, [], 0, 0⟩ ⟨0, some 8, none, .Got⟩
    ⟨true, 1, []⟩ 8 [] (Or.inr (Or.inl rfl)) rfl rfl rfl).2 0 rfl rfl
  exact h

/-- C2 (amended): an `R_X86_64_RELATIVE` record is appended during a
successful `apply_relocation` iff the relocation writer is active, the
target address is non-zero and the (post-relaxation) kind is `Absolute`;
when it is appended the entry is `(place, address)` and the value written at
the place is zero, and when the kind is `Absolute` but the gate fails the
value written is `address + addend`.  For a GOT-entry write taking the
default branch of `process_resolution`, however, a record is appended iff
the relocation writer is active — with no condition on the address. -/
theorem relative_emission_conditions (res : Resolution) (offset : Nat)
    (relInfo : RelocationKindInfo) (addend sectionAddress : Nat) (layout : LayoutInfo)
    (out : List Nat) (rw : RelocationWriter) (out' : List Nat)
    (m : RelocationModifier) (rw' : RelocationWriter)
    (h : apply_relocation res offset relInfo addend sectionAddress layout out rw =
      .ok (out', m, rw')) :
    (rw'.relaDynWritten ≠ rw.relaDynWritten ↔
      rw.is_active = true ∧ res.address ≠ 0 ∧ relInfo.kind = .Absolute) ∧
    (rw.is_active = true → res.address ≠ 0 → relInfo.kind = .Absolute →
      rw'.relaDynWritten = rw.relaDynWritten ++
        [⟨wadd sectionAddress offset, res.address, R_X86_64_RELATIVE⟩] ∧
      out' = spliceBytes out offset (leBytes relInfo.byte_size 0)) ∧
    (relInfo.kind = .Absolute → ¬ (rw.is_active = true ∧ res.address ≠ 0) →
      rw' = rw ∧
      out' = spliceBytes out offset (leBytes relInfo.byte_size (wadd res.address addend))) ∧
    (∀ (template : List Nat) (s sp : PltGotWriter) (rwp rwp' : RelocationWriter) (g : Nat),
      res.kind = .Address ∨ res.kind = .Got ∨ res.kind = .Plt →
      res.got_address = some g → s.got ≠ [] →
      process_resolution template s res rwp = .ok (sp, rwp') →
      (rwp'.relaDynWritten ≠ rwp.relaDynWritten ↔ rwp.is_active = true)) := by
  have happend : ∀ (l : List Rela) (x : Rela), l ++ [x] ≠ l := by
    intro l x he
    have := congrArg List.length he
    simp at this
  refine ⟨?_, ?_, ?_, ?_⟩
  · by_cases hk : relInfo.kind = .Absolute
    · obtain ⟨hpos, hneg⟩ := apply_relocation_absolute res offset relInfo addend
        sectionAddress layout out rw out' m rw' hk h
      by_cases hcond : rw.is_active = true ∧ res.address ≠ 0
      · obtain ⟨hap, _⟩ := hpos hcond
        constructor
        · intro _; exact ⟨hcond.1, hcond.2, hk⟩
        · intro _; rw [hap]; exact happend _ _
      · obtain ⟨hrw, _⟩ := hneg hcond
        constructor
        · intro hne; exact absurd (by rw [hrw]) hne
        · intro ⟨h1, h2, _⟩; exact absurd ⟨h1, h2⟩ hcond
    · have hrw := apply_relocation_rw_eq res offset relInfo addend sectionAddress
        layout out rw out' m rw' hk h
      constructor
      · intro hne; exact absurd (by rw [hrw]) hne
      · intro ⟨_, _, h3⟩; exact absurd h3 hk
  · intro h1 h2 h3
    exact (apply_relocation_absolute res offset relInfo addend sectionAddress layout
      out rw out' m rw' h3 h).1 ⟨h1, h2⟩
  · intro hk hcond
    exact (apply_relocation_absolute res offset relInfo addend sectionAddress layout
      out rw out' m rw' hk h).2 hcond
  · intro template s sp rwp rwp' g hk3 hga hne hp
    unfold process_resolution at hp
    simp only [hga] at hp
    rw [if_neg (by simpa [List.isEmpty_iff] using hne)] at hp
    have hfin : finishGotPlt template s res rwp g rwp.is_active res.address =
        .ok (sp, rwp') := by
      rcases hk3 with hk3 | hk3 | hk3 <;> rw [hk3] at hp <;> exact hp
    obtain ⟨hfalse, htrue⟩ := finishGotPlt_rw template s res rwp g res.address sp rwp' hfin
    cases hact : rwp.is_active with
    | false =>
        rw [hfalse hact]
        simp [hact]
    | true =>
        rw [htrue hact]
        simp [hact, happend]

/-- Witness for the amended C2: a non-relocatable Absolute relocation writing
`address + addend` with no dynamic entry. -/
theorem relative_emission_conditions_witness :
    ((RelocationWriter.relaDynWritten ⟨false, 0, []⟩ ≠
        RelocationWriter.relaDynWritten ⟨false, 0, []⟩ ↔
      RelocationWriter.is_active ⟨false, 0, []⟩ = true ∧
        Resolution.address ⟨5, none, none, .Address⟩ ≠ 0 ∧
        RelocationKindInfo.kind ⟨.Absolute, 8⟩ = .Absolute) ∧
    (RelocationWriter.is_active ⟨false, 0, []⟩ = true →
      Resolution.address ⟨5, none, none, .Address⟩ ≠ 0 →
      RelocationKindInfo.kind ⟨.Absolute, 8⟩ = .Absolute →
      RelocationWriter.relaDynWritten ⟨false, 0, []⟩ =
        RelocationWriter.relaDynWritten ⟨false, 0, []⟩ ++
          [⟨wadd 0 0, Resolution.address ⟨5, none, none, .Address⟩, R_X86_64_RELATIVE⟩] ∧
      [8, 0, 0, 0, 0, 0, 0, 0] = spliceBytes (List.replicate 8 9) 0 (leBytes 8 0)) ∧
    (RelocationKindInfo.kind ⟨.Absolute, 8⟩ = .Absolute →
      ¬ (RelocationWriter.is_active ⟨false, 0, []⟩ = true ∧
        Resolution.address ⟨5, none, none, .Address⟩ ≠ 0) →
      (⟨false, 0, []⟩ : RelocationWriter) = ⟨false, 0, []⟩ ∧
      [8, 0, 0, 0, 0, 0, 0, 0] = spliceBytes (List.replicate 8 9) 0
        (leBytes 8 (wadd (Resolution.address ⟨5, none, none, .Address⟩) 3))) ∧
    (∀ (template : List Nat) (s sp : PltGotWriter) (rwp rwp' : RelocationWriter) (g : Nat),
      Resolution.kind ⟨5, none, none, .Address⟩ = .Address ∨
        Resolution.kind ⟨5, none, none, .Address⟩ = .Got ∨
        Resolution.kind ⟨5, none, none, .Address⟩ = .Plt →
      Resolution.got_address ⟨5, none, none, .Address⟩ = some g → s.got ≠ [] →
      process_resolution template s ⟨5, none, none, .Address⟩ rwp = .ok (sp, rwp') →
      (rwp'.relaDynWritten ≠ rwp.relaDynWritten ↔ rwp.is_active = true))) :=
  relative_emission_conditions ⟨5, none, none, .Address⟩ 0 ⟨.Absolute, 8⟩ 3 0
    ⟨.LocalExec, true, 0, none⟩ (List.replicate 8 9) ⟨false, 0, []⟩
    [8, 0, 0, 0, 0, 0, 0, 0] .Normal ⟨false, 0, []⟩ (by rfl)

/-- C3: when `apply_relocation` processes a `TlsGd` relocation with
`tls_mode == LocalExec`, it first verifies that the four bytes immediately
before the offset equal `66 48 8D 3D` — failing with a diagnostic when they
are fewer or differ — then overwrites the twelve bytes
`[offset-4 .. offset+8)` with `64 48 8B 04 25 00 00 00 00 48 8D 80`,
advances the write offset by 8, writes `address - tls_end` as a 32-bit
little-endian immediate at the advanced offset, and returns
`SkipNextRelocation` so the following relocation is not applied. -/
theorem tlsgd_local_exec_rewrite (res : Resolution) (offset : Nat)
    (addend sectionAddress : Nat) (layout : LayoutInfo) (out : List Nat)
    (rw : RelocationWriter) (hmode : layout.tlsMode = .LocalExec) :
    (offset < 4 →
      apply_relocation res offset tlsGdInfo addend sectionAddress layout out rw =
        .error (.bail "Expected bytes, but had fewer bytes available")) ∧
    (4 ≤ offset → offset ≤ out.length →
      (out.drop (offset - 4)).take 4 ≠ [0x66, 0x48, 0x8d, 0x3d] →
      apply_relocation res offset tlsGdInfo addend sectionAddress layout out rw =
        .error (.bail "Expected bytes differ from actual bytes")) ∧
    (4 ≤ offset → offset + 12 ≤ out.length →
      (out.drop (offset - 4)).take 4 = [0x66, 0x48, 0x8d, 0x3d] →
      apply_relocation res offset tlsGdInfo addend sectionAddress layout out rw =
        .ok (out.take (offset - 4) ++ TLSGD_LE_BYTES ++
              leBytes 4 (wsub res.address layout.tlsEndAddress) ++ out.drop (offset + 12),
          .SkipNextRelocation, rw)) := by
  refine ⟨?_, ?_, ?_⟩
  · intro h1
    simp [apply_relocation, relocation_step, tlsGdInfo, hmode,
      expect_bytes_before_offset, h1]
  · intro h2 h3 h4
    unfold apply_relocation relocation_step expect_bytes_before_offset
    simp only [tlsGdInfo, hmode]
    rw [if_neg (by simp; omega), if_neg (by omega), if_neg (by simpa using h4)]
  · intro h2 h5 h6
    have hexp : expect_bytes_before_offset out offset [0x66, 0x48, 0x8d, 0x3d] =
        .ok () := by
      unfold expect_bytes_before_offset
      rw [if_neg (by simp; omega), if_neg (by omega), if_pos (by simpa using h6)]
    have hsplice := spliceBytes_spliceBytes out TLSGD_LE_BYTES
      (leBytes 4 (wsub res.address layout.tlsEndAddress)) offset rfl
      (leBytes_length 4 _) h2 h5
    have hlen1 : (spliceBytes out (offset - 4) TLSGD_LE_BYTES).length = out.length := by
      apply spliceBytes_length
      simp [TLSGD_LE_BYTES]
      omega
    unfold apply_relocation relocation_step
    simp only [tlsGdInfo, hmode, hexp]
    rw [if_neg (by omega)]
    dsimp only
    rw [if_neg (by rw [hlen1]; omega)]
    rw [hsplice]

/-- Witness for C3 at E3-like concrete bytes: `offset = 4`, prefix
`66 48 8D 3D`, `address = tls_end - 0x40`. -/
theorem tlsgd_local_exec_rewrite_witness :
    (4 < 4 →
      apply_relocation ⟨0xC0, none, none, .Address⟩ 4 tlsGdInfo 0 0
          ⟨.LocalExec, true, 0x100, none⟩
          ([0x66, 0x48, 0x8d, 0x3d] ++ List.replicate 12 0) ⟨false, 0, []⟩ =
        .error (.bail "Expected bytes, but had fewer bytes available")) ∧
    (4 ≤ 4 → 4 ≤ ([0x66, 0x48, 0x8d, 0x3d] ++ List.replicate 12 0 : List Nat).length →
      ((([0x66, 0x48, 0x8d, 0x3d] ++ List.replicate 12 0 : List Nat)).drop (4 - 4)).take 4 ≠
        [0x66, 0x48, 0x8d, 0x3d] →
      apply_relocation ⟨0xC0, none, none, .Address⟩ 4 tlsGdInfo 0 0
          ⟨.LocalExec, true, 0x100, none⟩
          ([0x66, 0x48, 0x8d, 0x3d] ++ List.replicate 12 0) ⟨false, 0, []⟩ =
        .error (.bail "Expected bytes differ from actual bytes")) ∧
    (4 ≤ 4 → 4 + 12 ≤ ([0x66, 0x48, 0x8d, 0x3d] ++ List.replicate 12 0 : List Nat).length →
      ((([0x66, 0x48, 0x8d, 0x3d] ++ List.replicate 12 0 : List Nat)).drop (4 - 4)).take 4 =
        [0x66, 0x48, 0x8d, 0x3d] →
      apply_relocation ⟨0xC0, none, none, .Address⟩ 4 tlsGdInfo 0 0
          ⟨.LocalExec, true, 0x100, none⟩
          ([0x66, 0x48, 0x8d, 0x3d] ++ List.replicate 12 0) ⟨false, 0, []⟩ =
        .ok (([0x66, 0x48, 0x8d, 0x3d] ++ List.replicate 12 0 : List Nat).take (4 - 4) ++
              TLSGD_LE_BYTES ++
              leBytes 4 (wsub (Resolution.address ⟨0xC0, none, none, .Address⟩)
                (LayoutInfo.tlsEndAddress ⟨.LocalExec, true, 0x100, none⟩)) ++
              ([0x66, 0x48, 0x8d, 0x3d] ++ List.replicate 12 0 : List Nat).drop (4 + 12),
          .SkipNextRelocation, ⟨false, 0, []⟩)) :=
  tlsgd_local_exec_rewrite ⟨0xC0, none, none, .Address⟩ 4 0 0
    ⟨.LocalExec, true, 0x100, none⟩ ([0x66, 0x48, 0x8d, 0x3d] ++ List.replicate 12 0)
    ⟨false, 0, []⟩ rfl

/-- C4: for every resolution with a PLT address (and the GOT slot it is
patched against), a successful `process_resolution` emits exactly one
16-byte PLT entry equal to `PLT_ENTRY_TEMPLATE` except that bytes `[7..11]`
contain the little-endian `i32` of `got_address - (plt_address + 0xB)`,
consuming 16 PLT bytes; when that difference does not fit a signed 32-bit
integer the operation fails with the 2GB-distance error instead of writing a
truncated offset. -/
theorem plt_entry_patch (template : List Nat) (s : PltGotWriter) (res : Resolution)
    (rw : RelocationWriter) (g p g0 : Nat) (rest : List Nat)
    (hk : res.kind ≠ .GotTlsDouble)
    (htls : res.kind = .GotTlsOffset →
      s.tlsStart ≤ res.address ∧ res.address < s.tlsEnd)
    (hga : res.got_address = some g) (hpa : res.plt_address = some p)
    (hgot : s.got = g0 :: rest) (hplt : 16 ≤ s.pltRemaining)
    (htl : template.length = 16)
    (hcap : rw.is_active = true → 1 ≤ rw.relaDynRemaining) :
    (fitsI32 (wsub g (wadd p 0xb)) →
      (process_resolution template s res rw).map
          (fun pr => (pr.1.pltWritten, pr.1.pltRemaining)) =
        .ok (s.pltWritten ++
            (template.take 7 ++ leBytes 4 (wsub g (wadd p 0xb)) ++ template.drop 11),
          s.pltRemaining - 16) ∧
      (template.take 7 ++ leBytes 4 (wsub g (wadd p 0xb)) ++ template.drop 11).length =
        16 ∧
      sdecode32 (leBytes 4 (wsub g (wadd p 0xb))) = u64AsI64 (wsub g (wadd p 0xb))) ∧
    (¬ fitsI32 (wsub g (wadd p 0xb)) →
      process_resolution template s res rw =
        .error (.bail "PLT is more than 2GB away from GOT")) := by
  have hp0 : ¬ s.pltRemaining = 0 := by omega
  have hp16 : ¬ s.pltRemaining < 16 := by omega
  have hlen16 :
      (template.take 7 ++ leBytes 4 (wsub g (wadd p 0xb)) ++ template.drop 11).length =
        16 := by
    simp [List.length_take, List.length_drop, leBytes_length, htl]
  have hdec := sdecode32_leBytes (wsub g (wadd p 0xb)) (wsub_lt _ _)
  constructor
  · intro hfit
    refine ⟨?_, hlen16, hdec hfit⟩
    cases hact : rw.is_active with
    | false =>
        cases hkind : res.kind
        case GotTlsDouble => exact absurd hkind hk
        case GotTlsOffset =>
          simp [process_resolution, hga, hgot, hkind, finishGotPlt, hact, hpa, hp0,
            hp16, htl, hfit, htls hkind, PLT_ENTRY_SIZE, Except.map, Pure.pure,
            Except.pure, Bind.bind, Except.bind]
        all_goals
          simp [process_resolution, hga, hgot, hkind, finishGotPlt, hact, hpa, hp0,
            hp16, htl, hfit, PLT_ENTRY_SIZE, Except.map, Pure.pure, Except.pure,
            Bind.bind, Except.bind]
    | true =>
        obtain ⟨marg, hrem⟩ : ∃ marg, rw.relaDynRemaining = marg + 1 := by
          have := hcap hact
          exact ⟨rw.relaDynRemaining - 1, by omega⟩
        cases hkind : res.kind
        case GotTlsDouble => exact absurd hkind hk
        case GotTlsOffset =>
          simp [process_resolution, hga, hgot, hkind, finishGotPlt, hact, hpa, hp0,
            hp16, htl, hfit, htls hkind, hrem, PLT_ENTRY_SIZE, Except.map, Pure.pure,
            Except.pure, Bind.bind, Except.bind, RelocationWriter.write_relocation]
        all_goals
          simp [process_resolution, hga, hgot, hkind, finishGotPlt, hact, hpa, hp0,
            hp16, htl, hfit, hrem, PLT_ENTRY_SIZE, Except.map, Pure.pure, Except.pure,
            Bind.bind, Except.bind, RelocationWriter.write_relocation]
  · intro hfit
    cases hact : rw.is_active with
    | false =>
        cases hkind : res.kind
        case GotTlsDouble => exact absurd hkind hk
        case GotTlsOffset =>
          simp [process_resolution, hga, hgot, hkind, finishGotPlt, hact, hpa, hp0,
            hp16, htl, hfit, htls hkind, PLT_ENTRY_SIZE, Pure.pure, Except.pure,
            Bind.bind, Except.bind]
          rfl
        all_goals
          (simp [process_resolution, hga, hgot, hkind, finishGotPlt, hact, hpa, hp0,
            hp16, htl, hfit, PLT_ENTRY_SIZE, Pure.pure, Except.pure, Bind.bind,
            Except.bind]
           rfl)
    | true =>
        obtain ⟨marg, hrem⟩ : ∃ marg, rw.relaDynRemaining = marg + 1 := by
          have := hcap hact
          exact ⟨rw.relaDynRemaining - 1, by omega⟩
        cases hkind : res.kind
        case GotTlsDouble => exact absurd hkind hk
        case GotTlsOffset =>
          simp [process_resolution, hga, hgot, hkind, finishGotPlt, hact, hpa, hp0,
            hp16, htl, hfit, htls hkind, hrem, PLT_ENTRY_SIZE, Pure.pure, Except.pure,
            Bind.bind, Except.bind, RelocationWriter.write_relocation]
          rfl
        all_goals
          (simp [process_resolution, hga, hgot, hkind, finishGotPlt, hact, hpa, hp0,
            hp16, htl, hfit, hrem, PLT_ENTRY_SIZE, Pure.pure, Except.pure, Bind.bind,
            Except.bind, RelocationWriter.write_relocation]
           rfl)

/-- Witness for C4 at the E2 input: a single IFunc resolution with
`got_address = 0x4000`, `plt_address = 0x2000`, so the patched offset is
`0x4000 - 0x200B = 0x1FF5`. -/
theorem plt_entry_patch_witness :
    (fitsI32 (wsub 0x4000 (wadd 0x2000 0xb)) →
      (process_resolution (List.replicate 16 7) ⟨[0], [], 16, [], 0, [], 0, 0⟩
            ⟨0, some 0x4000, some 0x2000, .IFunc⟩ ⟨false, 0, []⟩).map
          (fun pr => (pr.1.pltWritten, pr.1.pltRemaining)) =
        .ok (PltGotWriter.pltWritten ⟨[0], [], 16, [], 0, [], 0, 0⟩ ++
            ((List.replicate 16 7).take 7 ++ leBytes 4 (wsub 0x4000 (wadd 0x2000 0xb)) ++
              (List.replicate 16 7).drop 11),
          PltGotWriter.pltRemaining ⟨[0], [], 16, [], 0, [], 0, 0⟩ - 16) ∧
      ((List.replicate 16 7).take 7 ++ leBytes 4 (wsub 0x4000 (wadd 0x2000 0xb)) ++
        (List.replicate 16 7).drop 11).length = 16 ∧
      sdecode32 (leBytes 4 (wsub 0x4000 (wadd 0x2000 0xb))) =
        u64AsI64 (wsub 0x4000 (wadd 0x2000 0xb))) ∧
    (¬ fitsI32 (wsub 0x4000 (wadd 0x2000 0xb)) →
      process_resolution (List.replicate 16 7) ⟨[0], [], 16, [], 0, [], 0, 0⟩
          ⟨0, some 0x4000, some 0x2000, .IFunc⟩ ⟨false, 0, []⟩ =
        .error (.bail "PLT is more than 2GB away from GOT")) :=
  plt_entry_patch (List.replicate 16 7) ⟨[0], [], 16, [], 0, [], 0, 0⟩
    ⟨0, some 0x4000, some 0x2000, .IFunc⟩ ⟨false, 0, []⟩ 0x4000 0x2000 0 []
    (by decide) (by decide) rfl rfl rfl (by decide) (by decide) (by decide)

end ElfWriter
